import Mathlib

/-!
Shallow embedding of the core of `stream-motion-detect` (Python) and proofs
about its throttling, rule-matching, stream-buffer, reconnect and
notification-dispatch logic.

Conventions common to the whole development:
* wall-clock instants are integers (seconds); the source only ever compares
  `datetime` values through `total_seconds()` of their difference;
* Python dictionaries keyed by strings become association lists;
* `float` confidences become rationals (only order comparisons occur);
* effectful collaborators (screenshot store, notification endpoint, network
  connect) become explicit oracle parameters returning the value the Python
  call would return.
-/

/-- Python truthiness of an `Optional[str]` (`None` and `""` are falsy). -/
def optStrTruthy : Option String → Bool
  | none => false
  | some s => !(s == "")

/-- Dictionary write `d[k] = v` on an association list. -/
def setKey : List (String × Int) → String → Int → List (String × Int)
  | [], k, v => [(k, v)]
  | (k0, v0) :: rest, k, v =>
      if k0 = k then (k0, v) :: rest else (k0, v0) :: setKey rest k v

/-- Dictionary read `d.get(k)` on an association list. -/
def getKey : List (String × Int) → String → Option Int
  | [], _ => none
  | (k0, v0) :: rest, k => if k0 = k then some v0 else getKey rest k

theorem getKey_setKey_self (m : List (String × Int)) (k : String) (v : Int) :
    getKey (setKey m k v) k = some v := by
  induction m with
  | nil => simp [setKey, getKey]
  | cons hd tl ih =>
      obtain ⟨k0, v0⟩ := hd
      by_cases h : k0 = k <;> simp [setKey, getKey, h, ih]

theorem getKey_setKey_ne (m : List (String × Int)) (k q : String) (v : Int)
    (h : k ≠ q) : getKey (setKey m k v) q = getKey m q := by
  induction m with
  | nil => simp [setKey, getKey, h]
  | cons hd tl ih =>
      obtain ⟨k0, v0⟩ := hd
      by_cases h0 : k0 = k
      · subst h0
        simp [setKey, getKey, h]
      · simp [setKey, getKey, h0, ih]

/-- `detectors/base_detector.py` `DetectionResult` (the fields the managers
read: type, confidence, bbox, person id). -/
structure DetectionResult where
  detection_type : String
  confidence : ℚ
  bbox : Int × Int × Int × Int
  person_id : String
deriving DecidableEq, Repr

/-- `managers/helmet_violation_manager.py` `HelmetViolationRecord`. -/
structure HelmetViolationRecord where
  person_id : String
  violation_type : String
  detection_time : Int
  confidence : ℚ
  camera_id : String
  image_path : String
  bbox : Int × Int × Int × Int
deriving DecidableEq, Repr

/-- Mutable state of a `HelmetViolationManager`: the per-person last-screenshot
map, the JSON-file record log, the in-memory record cache, the counters of
`self.stats`, and (observation) the list of notifications handed to the
sender. -/
structure HelmetState where
  lastScreenshotTime : List (String × Int)
  savedRecords : List HelmetViolationRecord
  violationRecords : List HelmetViolationRecord
  statsTotal : Nat
  statsScreenshots : Nat
  statsNotifs : Nat
  statsUnique : Nat
  sentNotifications : List HelmetViolationRecord
deriving DecidableEq, Repr

/-- A freshly constructed manager (empty maps, zero counters). -/
def helmetInit : HelmetState :=
  ⟨[], [], [], 0, 0, 0, 0, []⟩

/-- External collaborators of the helmet manager: whether a screenshot manager
and a notification sender are configured, and the path
`ScreenshotManager.take_screenshot` returns (`none` models a failed save). -/
structure HelmetEnv where
  smPresent : Bool
  nsPresent : Bool
  screenshot : Int → String → Option String

/-- `HelmetViolationManager._should_take_screenshot` (lines 233-243): accept
iff the person has no recorded time or `(now - last).total_seconds()` is at
least the configured interval.  This is the body of the lock-guarded critical
section, phrased over the bare map so the concurrency model can reuse it. -/
def shouldTakeScreenshotMap (interval : Int) (m : List (String × Int))
    (personId : String) (now : Int) : Bool :=
  match getKey m personId with
  | none => true
  | some lastTime => decide (interval ≤ now - lastTime)

/-- Same check, reading the map out of the manager state. -/
def shouldTakeScreenshot (interval : Int) (st : HelmetState)
    (personId : String) (now : Int) : Bool :=
  shouldTakeScreenshotMap interval st.lastScreenshotTime personId now

/-- `HelmetViolationManager._save_violation_record` (lines 245-275): append to
the JSON file for the day and to the in-memory cache, trimming the cache to
its newest 500 entries once it passes 1000. -/
def saveViolationRecord (st : HelmetState) (record : HelmetViolationRecord) :
    HelmetState :=
  let cache := st.violationRecords ++ [record]
  let cache := if cache.length > 1000 then cache.drop (cache.length - 500) else cache
  { st with savedRecords := st.savedRecords ++ [record], violationRecords := cache }

/-- `HelmetViolationManager._update_stats` (lines 310-323). -/
def helmetUpdateStats (st : HelmetState) (personId : String)
    (screenshotTaken : Bool) : HelmetState :=
  let st := { st with statsTotal := st.statsTotal + 1 }
  let st :=
    if screenshotTaken then
      { st with statsScreenshots := st.statsScreenshots + 1,
                statsNotifs := st.statsNotifs + 1 }
    else st
  let uniq := st.lastScreenshotTime.length +
    (if getKey st.lastScreenshotTime personId = none then 1 else 0)
  { st with statsUnique := uniq }

/-- Result dictionary returned by `_process_single_violation`. -/
structure HelmetProcessResult where
  person_id : String
  violation_type : String
  confidence : ℚ
  bbox : Int × Int × Int × Int
  screenshot_taken : Bool
  record_saved : Bool
  image_path : Option String
deriving DecidableEq, Repr

/-- `HelmetViolationManager._process_single_violation` (lines 169-231):
decide the throttle, maybe take a screenshot, always save a record, update the
last-screenshot time only when a screenshot path actually came back, send a
notification when additionally a sender is configured, update stats. -/
def processSingleViolation (interval : Int) (env : HelmetEnv) (st : HelmetState)
    (violation : DetectionResult) (cameraId : String) (now : Int)
    (personId : String) : HelmetState × HelmetProcessResult :=
  let should := shouldTakeScreenshot interval st personId now
  let imagePath : Option String :=
    if should && env.smPresent then env.screenshot now personId else none
  let record : HelmetViolationRecord :=
    { person_id := personId
      violation_type := violation.detection_type
      detection_time := now
      confidence := violation.confidence
      camera_id := cameraId
      image_path := imagePath.getD ""
      bbox := violation.bbox }
  let st := saveViolationRecord st record
  let st :=
    if should && optStrTruthy imagePath then
      { st with lastScreenshotTime := setKey st.lastScreenshotTime personId now }
    else st
  let st :=
    if should && env.nsPresent && optStrTruthy imagePath then
      { st with sentNotifications := st.sentNotifications ++ [record] }
    else st
  let st := helmetUpdateStats st personId should
  (st,
    { person_id := personId
      violation_type := violation.detection_type
      confidence := violation.confidence
      bbox := violation.bbox
      screenshot_taken := should
      record_saved := true
      image_path := imagePath })

/-- Run a sequence of `_process_single_violation` calls for one person at the
given instants, collecting the throttle decisions. -/
def runHelmet (interval : Int) (env : HelmetEnv) (violation : DetectionResult)
    (cameraId personId : String) :
    HelmetState → List Int → HelmetState × List Bool
  | st, [] => (st, [])
  | st, t :: ts =>
      let step := processSingleViolation interval env st violation cameraId t personId
      let rest := runHelmet interval env violation cameraId personId step.1 ts
      (rest.1, step.2.screenshot_taken :: rest.2)

/-! ### Basic facts about `_process_single_violation` -/

/-- The throttle decision reported by a processing step is exactly
`_should_take_screenshot`. -/
theorem processSingleViolation_decision (interval : Int) (env : HelmetEnv)
    (st : HelmetState) (v : DetectionResult) (cam : String) (now : Int)
    (pid : String) :
    (processSingleViolation interval env st v cam now pid).2.screenshot_taken =
      shouldTakeScreenshot interval st pid now := by
  simp [processSingleViolation]

/-- A rejected processing step leaves the last-screenshot map untouched. -/
theorem processSingleViolation_lastMap_rejected (interval : Int) (env : HelmetEnv)
    (st : HelmetState) (v : DetectionResult) (cam : String) (now : Int)
    (pid : String) (h : shouldTakeScreenshot interval st pid now = false) :
    (processSingleViolation interval env st v cam now pid).1.lastScreenshotTime =
      st.lastScreenshotTime := by
  simp [processSingleViolation, saveViolationRecord, helmetUpdateStats, h]

/-- An accepted processing step whose screenshot succeeds records the instant
in the last-screenshot map. -/
theorem processSingleViolation_lastMap_accepted (interval : Int) (env : HelmetEnv)
    (st : HelmetState) (v : DetectionResult) (cam : String) (now : Int)
    (pid : String) (h : shouldTakeScreenshot interval st pid now = true)
    (hsm : env.smPresent = true)
    (hok : optStrTruthy (env.screenshot now pid) = true) :
    (processSingleViolation interval env st v cam now pid).1.lastScreenshotTime =
      setKey st.lastScreenshotTime pid now := by
  cases hns : env.nsPresent <;>
    simp [processSingleViolation, saveViolationRecord, helmetUpdateStats, h, hsm, hok, hns]

/-- A processing step whose screenshot does not produce a usable path (store
absent, save failed, or empty path) leaves the last-screenshot map
untouched. -/
theorem processSingleViolation_lastMap_noShot (interval : Int) (env : HelmetEnv)
    (st : HelmetState) (v : DetectionResult) (cam : String) (now : Int)
    (pid : String)
    (hfail : optStrTruthy (if env.smPresent then env.screenshot now pid else none) = false) :
    (processSingleViolation interval env st v cam now pid).1.lastScreenshotTime =
      st.lastScreenshotTime := by
  by_cases h : shouldTakeScreenshot interval st pid now <;>
    cases hns : env.nsPresent <;>
      simp [processSingleViolation, saveViolationRecord, helmetUpdateStats, h, hns] <;>
        simp_all

/-- Splitting a run of the helmet manager over an appended instant list. -/
theorem runHelmet_append (interval : Int) (env : HelmetEnv) (v : DetectionResult)
    (cam pid : String) (st : HelmetState) (l1 l2 : List Int) :
    runHelmet interval env v cam pid st (l1 ++ l2) =
      ((runHelmet interval env v cam pid
          (runHelmet interval env v cam pid st l1).1 l2).1,
       (runHelmet interval env v cam pid st l1).2 ++
       (runHelmet interval env v cam pid
          (runHelmet interval env v cam pid st l1).1 l2).2) := by
  induction l1 generalizing st with
  | nil => simp [runHelmet]
  | cons t ts ih => simp [runHelmet, ih]

/-- While the person's recorded time stays `t0` and every instant in the run
is inside the cool-down window starting at `t0`, every call is rejected and
the map is never touched. -/
theorem runHelmet_window_rejected (interval : Int) (env : HelmetEnv)
    (v : DetectionResult) (cam pid : String) (ts : List Int) (st : HelmetState)
    (t0 : Int) (hlast : getKey st.lastScreenshotTime pid = some t0)
    (hwin : ∀ t ∈ ts, t - t0 < interval) :
    (runHelmet interval env v cam pid st ts).2 = ts.map (fun _ => false) ∧
    (runHelmet interval env v cam pid st ts).1.lastScreenshotTime =
      st.lastScreenshotTime := by
  induction ts generalizing st with
  | nil => simp [runHelmet]
  | cons t ts ih =>
      have hdec : shouldTakeScreenshot interval st pid t = false := by
        have ht : t - t0 < interval := hwin t (by simp)
        have hnot : ¬ interval ≤ t - t0 := by omega
        simp [shouldTakeScreenshot, shouldTakeScreenshotMap, hlast, hnot]
      have hmap' := processSingleViolation_lastMap_rejected interval env st v cam t pid hdec
      have hrest := ih (processSingleViolation interval env st v cam t pid).1
        (by rw [hmap']; exact hlast) (fun u hu => hwin u (by simp [hu]))
      refine ⟨?_, ?_⟩
      · simp [runHelmet, processSingleViolation_decision, hdec, hrest.1]
      · simp [runHelmet, hrest.2, hmap']

/-- C1 (amended): starting from a key with no prior acceptance, with the
screenshot store configured and always succeeding, a first call at `t0` is
accepted; every further call at an instant inside `[t0, t0 + C)` is rejected;
and a call at an instant `≥ t0 + C` is accepted again. -/
theorem helmet_throttle_window (C : Int) (env : HelmetEnv) (v : DetectionResult)
    (cam pid : String) (st0 : HelmetState) (t0 : Int) (rest : List Int)
    (tLater : Int)
    (hfresh : getKey st0.lastScreenshotTime pid = none)
    (hsm : env.smPresent = true)
    (hshot : ∀ t p, optStrTruthy (env.screenshot t p) = true)
    (hwin : ∀ t ∈ rest, t - t0 < C)
    (hlate : C ≤ tLater - t0) :
    (runHelmet C env v cam pid st0 (t0 :: rest)).2 =
      true :: rest.map (fun _ => false) ∧
    (runHelmet C env v cam pid st0 ((t0 :: rest) ++ [tLater])).2 =
      (true :: rest.map (fun _ => false)) ++ [true] := by
  have hdec0 : shouldTakeScreenshot C st0 pid t0 = true := by
    simp [shouldTakeScreenshot, shouldTakeScreenshotMap, hfresh]
  have hmap0 := processSingleViolation_lastMap_accepted C env st0 v cam t0 pid
    hdec0 hsm (hshot t0 pid)
  have hlast1 : getKey (processSingleViolation C env st0 v cam t0 pid).1.lastScreenshotTime
      pid = some t0 := by
    rw [hmap0]; exact getKey_setKey_self _ _ _
  have hrej := runHelmet_window_rejected C env v cam pid rest
    (processSingleViolation C env st0 v cam t0 pid).1 t0 hlast1 hwin
  have hfirst : (runHelmet C env v cam pid st0 (t0 :: rest)).2 =
      true :: rest.map (fun _ => false) := by
    simp [runHelmet, processSingleViolation_decision, hdec0, hrej.1]
  refine ⟨hfirst, ?_⟩
  have hstate1 : (runHelmet C env v cam pid st0 (t0 :: rest)).1.lastScreenshotTime =
      setKey st0.lastScreenshotTime pid t0 := by
    simp only [runHelmet]
    rw [hrej.2, hmap0]
  have hlastF : getKey (runHelmet C env v cam pid st0 (t0 :: rest)).1.lastScreenshotTime
      pid = some t0 := by
    rw [hstate1]; exact getKey_setKey_self _ _ _
  have hdecL : shouldTakeScreenshot C (runHelmet C env v cam pid st0 (t0 :: rest)).1
      pid tLater = true := by
    simp [shouldTakeScreenshot, shouldTakeScreenshotMap, hlastF]
    omega
  have hr2 : (runHelmet C env v cam pid
      (runHelmet C env v cam pid st0 (t0 :: rest)).1 [tLater]).2 = [true] := by
    have hdecL' : shouldTakeScreenshot C
        (runHelmet C env v cam pid (processSingleViolation C env st0 v cam t0 pid).1
          rest).1 pid tLater = true := by
      simpa [runHelmet] using hdecL
    simp [runHelmet, processSingleViolation_decision, hdecL, hdecL']
  rw [runHelmet_append]
  dsimp only
  rw [hfirst, hr2]

/-- Concrete environment in which every screenshot succeeds. -/
def envShotOk : HelmetEnv :=
  ⟨true, true, fun _ _ => some "shot.jpg"⟩

/-- Concrete helmet violation detection used in examples. -/
def vHelmet : DetectionResult :=
  ⟨"no_helmet", 9/10, (0, 0, 10, 10), "p1"⟩

/-- C1 counterexample: cool-down 20, calls at 0, 15, 30 from a fresh key with
screenshots succeeding.  The instants are strictly increasing and every
consecutive gap is below the cool-down, yet the third call is accepted too,
because the cool-down is measured from the last accepted instant, not from
the previous call. -/
theorem helmet_throttle_window_cex :
    ((0 : Int) < 15 ∧ (15 : Int) < 30 ∧ (15 : Int) - 0 < 20 ∧ (30 : Int) - 15 < 20) ∧
    (runHelmet 20 envShotOk vHelmet "cam" "p1" helmetInit [0, 15, 30]).2 =
      [true, false, true] := by
  exact ⟨by norm_num, by rfl⟩

/-- Witness for `helmet_throttle_window` at cool-down 20, calls 0, 5, 15
inside the window and a late call at 25. -/
theorem helmet_throttle_window_witness :
    (runHelmet 20 envShotOk vHelmet "cam" "p1" helmetInit [0, 5, 15]).2 =
      [true, false, false] ∧
    (runHelmet 20 envShotOk vHelmet "cam" "p1" helmetInit [0, 5, 15, 25]).2 =
      [true, false, false, true] := by
  have h := helmet_throttle_window 20 envShotOk vHelmet "cam" "p1" helmetInit 0
    [5, 15] 25 (by rfl) (by rfl) (fun t p => by rfl) (by decide) (by norm_num)
  exact ⟨by simpa using h.1, by simpa using h.2⟩

/-! ### C3: effects of a rejected throttle decision -/

/-- C3 (amended): a helmet violation whose throttle decision is rejected takes
no screenshot, submits no notification, leaves the last-screenshot map and the
screenshot/notification counters untouched and only bumps the total counter —
but it still appends a `HelmetViolationRecord` to the persisted record log
(the source saves the record unconditionally, accepted or not). -/
theorem helmet_rejected_effects (interval : Int) (env : HelmetEnv)
    (st : HelmetState) (v : DetectionResult) (cam : String) (now : Int)
    (pid : String) (h : shouldTakeScreenshot interval st pid now = false) :
    (processSingleViolation interval env st v cam now pid).1.savedRecords.length =
      st.savedRecords.length + 1 ∧
    (processSingleViolation interval env st v cam now pid).1.lastScreenshotTime =
      st.lastScreenshotTime ∧
    (processSingleViolation interval env st v cam now pid).1.sentNotifications =
      st.sentNotifications ∧
    (processSingleViolation interval env st v cam now pid).1.statsScreenshots =
      st.statsScreenshots ∧
    (processSingleViolation interval env st v cam now pid).1.statsNotifs =
      st.statsNotifs ∧
    (processSingleViolation interval env st v cam now pid).1.statsTotal =
      st.statsTotal + 1 ∧
    (processSingleViolation interval env st v cam now pid).2.screenshot_taken = false ∧
    (processSingleViolation interval env st v cam now pid).2.image_path = none := by
  refine ⟨?_, ?_, ?_, ?_, ?_, ?_, ?_, ?_⟩ <;>
    simp [processSingleViolation, saveViolationRecord, helmetUpdateStats, h]

/-- A state in which person `p1` was accepted 5 seconds ago (cool-down 20
still running). -/
def stRej : HelmetState :=
  ⟨[("p1", 95)], [], [], 1, 1, 1, 1, []⟩

/-- C3 counterexample: at instant 100 the decision for `p1` is rejected
(5 < 20 elapsed), yet the persisted record log grows by one record — the code
emits a `HelmetViolationRecord` for rejected decisions too, contradicting the
claim that rejected decisions leave the record set unchanged. -/
theorem helmet_rejected_effects_cex :
    shouldTakeScreenshot 20 stRej "p1" 100 = false ∧
    (processSingleViolation 20 envShotOk stRej vHelmet "cam" 100 "p1").1.savedRecords.length
      = stRej.savedRecords.length + 1 ∧
    (processSingleViolation 20 envShotOk stRej vHelmet "cam" 100 "p1").2.image_path
      = none ∧
    (processSingleViolation 20 envShotOk stRej vHelmet "cam" 100 "p1").1.sentNotifications
      = [] := by
  refine ⟨by rfl, by rfl, by rfl, by rfl⟩

/-- Witness for `helmet_rejected_effects` at the concrete rejected state. -/
theorem helmet_rejected_effects_witness :
    (processSingleViolation 20 envShotOk stRej vHelmet "cam" 100 "p1").1.savedRecords.length
      = stRej.savedRecords.length + 1 ∧
    (processSingleViolation 20 envShotOk stRej vHelmet "cam" 100 "p1").1.lastScreenshotTime
      = stRej.lastScreenshotTime ∧
    (processSingleViolation 20 envShotOk stRej vHelmet "cam" 100 "p1").1.statsNotifs
      = stRej.statsNotifs := by
  have h := helmet_rejected_effects 20 envShotOk stRej vHelmet "cam" 100 "p1" (by rfl)
  exact ⟨h.1, h.2.1, h.2.2.2.2.1⟩

/-! ### C2: concurrency of the throttle decide/update -/

/-- The two lock-guarded phases a caller of the helmet throttle executes for
one violation: `check` is the critical section inside
`_should_take_screenshot` (lines 235-243), `update` the separate critical
section writing `last_screenshot_time` (lines 209-210).  The screenshot taken
between the two phases is assumed to succeed, so an accepted caller always
reaches its update. -/
inductive ThrottlePhase
  | check
  | update
deriving DecidableEq, Repr

/-- Per-caller local data: the decision its check produced (`none` before the
check ran) and whether its update has run. -/
structure CallerLocal where
  decision : Option Bool
  updated : Bool
deriving DecidableEq, Repr

/-- Shared map plus each caller's local state. -/
structure ThrottleConc where
  map : List (String × Int)
  locals : Nat → CallerLocal

/-- One atomic (lock-guarded) step of caller `i`. -/
def throttleStep (interval : Int) (pid : String) (now : Int)
    (st : ThrottleConc) : Nat × ThrottlePhase → ThrottleConc
  | (i, .check) =>
      match (st.locals i).decision with
      | none =>
          { st with locals := fun j =>
              if j = i then
                ⟨some (shouldTakeScreenshotMap interval st.map pid now), false⟩
              else st.locals j }
      | some _ => st
  | (i, .update) =>
      if (st.locals i).decision = some true ∧ (st.locals i).updated = false then
        { map := setKey st.map pid now,
          locals := fun j =>
            if j = i then ⟨(st.locals j).decision, true⟩ else st.locals j }
      else st

/-- Run an interleaving (list of caller/phase events). -/
def runThrottleSched (interval : Int) (pid : String) (now : Int)
    (st : ThrottleConc) (sched : List (Nat × ThrottlePhase)) : ThrottleConc :=
  sched.foldl (throttleStep interval pid now) st

/-- How many of the callers `0..P-1` were accepted. -/
def acceptedCount (P : Nat) (st : ThrottleConc) : Nat :=
  ((List.range P).filter (fun i => (st.locals i).decision = some true)).length

/-- All callers pending, key never accepted before. -/
def concInit : ThrottleConc :=
  ⟨[], fun _ => ⟨none, false⟩⟩

/-- The serialized schedule: each caller's check is immediately followed by
its own update. -/
def serializedSched : Nat → List (Nat × ThrottlePhase)
  | 0 => []
  | P + 1 => serializedSched P ++ [(P, .check), (P, .update)]

/-- Exact state reached by the serialized schedule: caller 0 accepted and
recorded, all later callers rejected. -/
theorem serializedSched_state (interval : Int) (pid : String) (now : Int)
    (hC : 0 < interval) (P : Nat) (hP : 1 ≤ P) :
    (runThrottleSched interval pid now concInit (serializedSched P)).map =
      setKey [] pid now ∧
    ∀ j, (runThrottleSched interval pid now concInit (serializedSched P)).locals j =
      if j = 0 then ⟨some true, true⟩
      else if j < P then ⟨some false, false⟩ else ⟨none, false⟩ := by
  induction P with
  | zero => omega
  | succ P ih =>
      rcases Nat.eq_or_lt_of_le hP with h1 | h1
      · -- P + 1 = 1: run the two steps of caller 0 directly
        have hP0 : P = 0 := by omega
        subst hP0
        have hsh : shouldTakeScreenshotMap interval ([] : List (String × Int)) pid now
            = true := by
          simp [shouldTakeScreenshotMap, getKey]
        constructor
        · simp [serializedSched, runThrottleSched, throttleStep, concInit, hsh]
        · intro j
          by_cases hj : j = 0 <;>
            simp [serializedSched, runThrottleSched, throttleStep, concInit, hsh, hj]
      · have hP' : 1 ≤ P := by omega
        have ih' := ih hP'
        have hsplit : runThrottleSched interval pid now concInit (serializedSched (P + 1))
            = runThrottleSched interval pid now
                (runThrottleSched interval pid now concInit (serializedSched P))
                [(P, .check), (P, .update)] := by
          simp [serializedSched, runThrottleSched, List.foldl_append]
        set stP := runThrottleSched interval pid now concInit (serializedSched P) with hstP
        have hlocP : stP.locals P = ⟨none, false⟩ := by
          have := ih'.2 P
          simpa [Nat.lt_irrefl, show P ≠ 0 by omega] using this
        have hmapP : getKey stP.map pid = some now := by
          rw [ih'.1]; exact getKey_setKey_self _ _ _
        have hshP : shouldTakeScreenshotMap interval stP.map pid now = false := by
          simp [shouldTakeScreenshotMap, hmapP]
          omega
        have hcheck : runThrottleSched interval pid now stP [(P, .check), (P, .update)]
            = { stP with locals := fun j =>
                if j = P then ⟨some false, false⟩ else stP.locals j } := by
          simp [runThrottleSched, throttleStep, hlocP, hshP]
        rw [hsplit, hcheck]
        refine ⟨ih'.1, fun j => ?_⟩
        by_cases hj : j = P
        · subst hj
          simp [show ¬ (j = 0) from by omega, Nat.lt_irrefl]
        · have := ih'.2 j
          simp only [hj, if_false]
          rw [this]
          by_cases hj0 : j = 0
          · simp [hj0]
          · by_cases hjP : j < P
            · simp [hj0, hjP, show j < P + 1 by omega]
            · simp [hj0, hjP, show ¬ (j < P + 1) by omega]

/-- Helper: among `0..P-1` exactly one index equals 0 (when `P ≥ 1`). -/
theorem range_filter_zero_length (P : Nat) (hP : 1 ≤ P) :
    ((List.range P).filter (fun i => decide (i = 0))).length = 1 := by
  induction P with
  | zero => omega
  | succ P ih =>
      rcases Nat.eq_or_lt_of_le hP with h1 | h1
      · have hP0 : P = 0 := by omega
        subst hP0
        rfl
      · have hP' : 1 ≤ P := by omega
        rw [List.range_succ, List.filter_append, List.length_append, ih hP']
        simp [show ¬ (P = 0) by omega]

/-- C2 (amended): the cool-down check and the timestamp write are two
separate critical sections, so only a serialized execution — each caller's
check immediately followed by its own update — is guaranteed to accept
exactly one of `P` simultaneous callers for a fresh subject key (positive
cool-down); the interleaved counterexample shows two acceptances are
reachable otherwise. -/
theorem helmet_decide_serialized (interval : Int) (pid : String) (now : Int)
    (P : Nat) (hC : 0 < interval) (hP : 1 ≤ P) :
    acceptedCount P (runThrottleSched interval pid now concInit
      (serializedSched P)) = 1 := by
  obtain ⟨hmap, hloc⟩ := serializedSched_state interval pid now hC P hP
  unfold acceptedCount
  have hfil : (List.range P).filter
      (fun i => decide (((runThrottleSched interval pid now concInit
        (serializedSched P)).locals i).decision = some true)) =
      (List.range P).filter (fun i => decide (i = 0)) := by
    refine List.filter_congr ?_
    intro i hi
    rw [hloc i]
    by_cases h0 : i = 0
    · simp [h0]
    · by_cases hiP : i < P <;> simp [h0, hiP]
  rw [hfil]
  exact range_filter_zero_length P hP

/-- C2 counterexample: two callers for the same fresh key at the same
instant, scheduled check-check-update-update, are both accepted — the claim
that no interleaving yields two acceptances is false for this code. -/
theorem helmet_decide_interleaved_cex :
    acceptedCount 2 (runThrottleSched 20 "p1" 100 concInit
      [(0, ThrottlePhase.check), (1, ThrottlePhase.check),
       (0, ThrottlePhase.update), (1, ThrottlePhase.update)]) = 2 := by
  rfl

/-- Witness for `helmet_decide_serialized` with two callers and cool-down
20. -/
theorem helmet_decide_serialized_witness :
    acceptedCount 2 (runThrottleSched 20 "p1" 100 concInit (serializedSched 2)) = 1 :=
  helmet_decide_serialized 20 "p1" 100 2 (by norm_num) (by norm_num)

/-! ### Face detection manager (`managers/face_detection_manager.py`) -/

/-- `FaceDetectionRecord` of the face manager. -/
structure FaceDetectionRecord where
  person_id : String
  person_name : String
  detection_time : Int
  confidence : ℚ
  camera_id : String
  image_path : String
  bbox : Int × Int × Int × Int
deriving DecidableEq, Repr

/-- Mutable state of a `FaceDetectionManager`. -/
structure FaceState where
  lastNotificationTime : List (String × Int)
  savedRecords : List FaceDetectionRecord
  detectionRecords : List FaceDetectionRecord
  filedPersons : List String
  statsTotal : Nat
  statsRecords : Nat
  statsNotifs : Nat
  statsFiled : Nat
  statsUnique : Nat
  sentNotifications : List FaceDetectionRecord
deriving DecidableEq, Repr

/-- A freshly constructed face manager. -/
def faceInit : FaceState :=
  ⟨[], [], [], [], 0, 0, 0, 0, 0, []⟩

/-- External collaborators of the face manager.  `screenshot` is the path
`_save_face_screenshot` returns (`none` on failure), `dbEnsureOk` the result
of `DatabaseManager.ensure_person_exists`. -/
structure FaceEnv where
  smPresent : Bool
  nsPresent : Bool
  dbPresent : Bool
  autoFiling : Bool
  screenshot : Int → String → Option String
  dbEnsureOk : String → Bool

/-- `FaceDetectionManager._should_send_notification` (lines 209-222): never
for `"unknown"`, else accept iff no recorded time or the interval elapsed. -/
def shouldSendNotification (interval : Int) (st : FaceState) (personId : String)
    (now : Int) : Bool :=
  if personId = "unknown" then false
  else
    match getKey st.lastNotificationTime personId with
    | none => true
    | some lastTime => decide (interval ≤ now - lastTime)

/-- `FaceDetectionManager._save_detection_record` (lines 261-321): append to
the JSON file and the capped in-memory cache. -/
def saveDetectionRecord (st : FaceState) (record : FaceDetectionRecord) :
    FaceState :=
  let cache := st.detectionRecords ++ [record]
  let cache := if cache.length > 1000 then cache.drop (cache.length - 500) else cache
  { st with savedRecords := st.savedRecords ++ [record], detectionRecords := cache }

/-- `FaceDetectionManager._ensure_person_filing` (lines 167-207): returns
whether this was a new successful filing and marks the person as filed. -/
def ensurePersonFiling (env : FaceEnv) (st : FaceState) (personId : String) :
    FaceState × Bool :=
  let isNewFiling := !(st.filedPersons.contains personId)
  let ok := env.dbEnsureOk personId
  let st :=
    if ok then
      { st with filedPersons :=
          if st.filedPersons.contains personId then st.filedPersons
          else st.filedPersons ++ [personId] }
    else st
  (st, ok && isNewFiling)

/-- `FaceDetectionManager._update_stats` (lines 357-373). -/
def faceUpdateStats (st : FaceState) (personId : String)
    (notificationSent personFiled : Bool) : FaceState :=
  let st := { st with statsTotal := st.statsTotal + 1,
                      statsRecords := st.statsRecords + 1 }
  let st := if notificationSent then { st with statsNotifs := st.statsNotifs + 1 } else st
  let st := if personFiled then { st with statsFiled := st.statsFiled + 1 } else st
  let uniq := st.lastNotificationTime.length +
    (if getKey st.lastNotificationTime personId = none then 1 else 0)
  { st with statsUnique := uniq }

/-- Result dictionary of `_process_single_detection`. -/
structure FaceProcessResult where
  person_id : String
  person_name : String
  confidence : ℚ
  bbox : Int × Int × Int × Int
  notification_sent : Bool
  record_saved : Bool
  image_path : Option String
deriving DecidableEq, Repr

/-- `FaceDetectionManager._process_single_detection` (lines 107-165): decide
the throttle, maybe save a face screenshot, always save a record, maybe file
the person, and — when the decision is positive, a sender is configured and a
screenshot path came back — send the notification and update the
last-notification time inside the same guard. -/
def processSingleDetection (interval : Int) (env : FaceEnv) (st : FaceState)
    (detection : DetectionResult) (personName : String) (cameraId : String)
    (now : Int) : FaceState × FaceProcessResult :=
  let personId := detection.person_id
  let should := shouldSendNotification interval st personId now
  let imagePath : Option String :=
    if should && env.smPresent then env.screenshot now personId else none
  let record : FaceDetectionRecord :=
    { person_id := personId
      person_name := personName
      detection_time := now
      confidence := detection.confidence
      camera_id := cameraId
      image_path := imagePath.getD ""
      bbox := detection.bbox }
  let st := saveDetectionRecord st record
  let filing :=
    if env.autoFiling && env.dbPresent && !(personId == "unknown") then
      ensurePersonFiling env st personId
    else (st, false)
  let st := filing.1
  let st :=
    if should && env.nsPresent && optStrTruthy imagePath then
      { st with sentNotifications := st.sentNotifications ++ [record],
                lastNotificationTime := setKey st.lastNotificationTime personId now }
    else st
  let st := faceUpdateStats st personId should filing.2
  (st,
    { person_id := personId
      person_name := personName
      confidence := detection.confidence
      bbox := detection.bbox
      notification_sent := should
      record_saved := true
      image_path := imagePath })

/-- Run a sequence of `_process_single_detection` calls for one detection at
the given instants, collecting the throttle decisions. -/
def runFace (interval : Int) (env : FaceEnv) (detection : DetectionResult)
    (personName cameraId : String) :
    FaceState → List Int → FaceState × List Bool
  | st, [] => (st, [])
  | st, t :: ts =>
      let step := processSingleDetection interval env st detection personName cameraId t
      let rest := runFace interval env detection personName cameraId step.1 ts
      (rest.1, step.2.notification_sent :: rest.2)

/-- The decision reported by a face processing step is exactly
`_should_send_notification`. -/
theorem processSingleDetection_decision (interval : Int) (env : FaceEnv)
    (st : FaceState) (d : DetectionResult) (nm cam : String) (now : Int) :
    (processSingleDetection interval env st d nm cam now).2.notification_sent =
      shouldSendNotification interval st d.person_id now := by
  simp [processSingleDetection]

/-- The filing step never touches the last-notification map. -/
theorem filingStep_lastMap (env : FaceEnv) (c : Prop) [Decidable c] (s : FaceState)
    (pid : String) :
    ((if c then ensurePersonFiling env s pid else (s, false)).1).lastNotificationTime =
      s.lastNotificationTime := by
  by_cases hc : c
  · simp only [hc, if_true, ensurePersonFiling]
    split_ifs <;> rfl
  · simp [hc]

/-- `_update_stats` of the face manager never touches the last-notification
map. -/
theorem faceUpdateStats_lastMap (s : FaceState) (pid : String) (a b : Bool) :
    (faceUpdateStats s pid a b).lastNotificationTime = s.lastNotificationTime := by
  simp only [faceUpdateStats]
  split_ifs <;> rfl

/-- `_save_detection_record` never touches the last-notification map. -/
theorem saveDetectionRecord_lastMap (s : FaceState) (r : FaceDetectionRecord) :
    (saveDetectionRecord s r).lastNotificationTime = s.lastNotificationTime := by
  simp [saveDetectionRecord]

/-- The last-notification map after a face processing step, as a function of
the send guard of the source (decision positive, sender configured, usable
screenshot path). -/
theorem processSingleDetection_lastMap (interval : Int) (env : FaceEnv)
    (st : FaceState) (d : DetectionResult) (nm cam : String) (now : Int) :
    (processSingleDetection interval env st d nm cam now).1.lastNotificationTime =
      if shouldSendNotification interval st d.person_id now && env.nsPresent &&
          optStrTruthy (if shouldSendNotification interval st d.person_id now &&
              env.smPresent then env.screenshot now d.person_id else none) then
        setKey st.lastNotificationTime d.person_id now
      else st.lastNotificationTime := by
  simp only [processSingleDetection]
  rw [faceUpdateStats_lastMap]
  by_cases hg : (shouldSendNotification interval st d.person_id now && env.nsPresent &&
      optStrTruthy (if shouldSendNotification interval st d.person_id now &&
        env.smPresent then env.screenshot now d.person_id else none)) = true
  · rw [if_pos hg, if_pos hg]
    rw [show ∀ s : FaceState, ∀ x y,
      ({ s with sentNotifications := x, lastNotificationTime := y } :
        FaceState).lastNotificationTime = y from fun _ _ _ => rfl]
    rw [filingStep_lastMap, saveDetectionRecord_lastMap]
  · rw [if_neg hg, if_neg hg]
    rw [filingStep_lastMap, saveDetectionRecord_lastMap]

/-- A rejected face processing step leaves the last-notification map
untouched. -/
theorem processSingleDetection_lastMap_rejected (interval : Int) (env : FaceEnv)
    (st : FaceState) (d : DetectionResult) (nm cam : String) (now : Int)
    (h : shouldSendNotification interval st d.person_id now = false) :
    (processSingleDetection interval env st d nm cam now).1.lastNotificationTime =
      st.lastNotificationTime := by
  rw [processSingleDetection_lastMap]
  simp [h]

/-- Without a configured notification sender the last-notification map is
never touched. -/
theorem processSingleDetection_lastMap_noSender (interval : Int) (env : FaceEnv)
    (st : FaceState) (d : DetectionResult) (nm cam : String) (now : Int)
    (h : env.nsPresent = false) :
    (processSingleDetection interval env st d nm cam now).1.lastNotificationTime =
      st.lastNotificationTime := by
  rw [processSingleDetection_lastMap]
  simp [h]

/-- When no usable screenshot path comes back, the last-notification map is
never touched. -/
theorem processSingleDetection_lastMap_noShot (interval : Int) (env : FaceEnv)
    (st : FaceState) (d : DetectionResult) (nm cam : String) (now : Int)
    (hfail : optStrTruthy (if env.smPresent then env.screenshot now d.person_id else none)
      = false) :
    (processSingleDetection interval env st d nm cam now).1.lastNotificationTime =
      st.lastNotificationTime := by
  rw [processSingleDetection_lastMap]
  by_cases hs : shouldSendNotification interval st d.person_id now
  · simp [hs, hfail]
  · simp [hs]

/-! ### C10: the cool-down engages only on a successful screenshot -/

/-- If the screenshot oracle can never produce a usable path, every helmet
call for a fresh key is accepted, at any instants whatsoever. -/
theorem runHelmet_noShot_all_accepted (interval : Int) (env : HelmetEnv)
    (hor : env.smPresent = false ∨ ∀ t p, env.screenshot t p = none)
    (v : DetectionResult) (cam pid : String) (times : List Int) (st : HelmetState)
    (hfresh : getKey st.lastScreenshotTime pid = none) :
    (runHelmet interval env v cam pid st times).2 = times.map (fun _ => true) := by
  have hfail : ∀ now, optStrTruthy
      (if env.smPresent then env.screenshot now pid else none) = false := by
    intro now
    rcases hor with h | h
    · simp [h, optStrTruthy]
    · cases hsm : env.smPresent <;> simp [h, optStrTruthy]
  induction times generalizing st with
  | nil => simp [runHelmet]
  | cons t ts ih =>
      have hdec : shouldTakeScreenshot interval st pid t = true := by
        simp [shouldTakeScreenshot, shouldTakeScreenshotMap, hfresh]
      have hmap := processSingleViolation_lastMap_noShot interval env st v cam t pid
        (hfail t)
      have hrest := ih (processSingleViolation interval env st v cam t pid).1
        (by rw [hmap]; exact hfresh)
      simp [runHelmet, processSingleViolation_decision, hdec, hrest]

/-- If the face-screenshot oracle can never produce a usable path, every face
call for a fresh enrolled identity is accepted, at any instants whatsoever. -/
theorem runFace_noShot_all_accepted (interval : Int) (env : FaceEnv)
    (hor : env.smPresent = false ∨ ∀ t p, env.screenshot t p = none)
    (d : DetectionResult) (nm cam : String) (times : List Int) (st : FaceState)
    (hfresh : getKey st.lastNotificationTime d.person_id = none)
    (hid : d.person_id ≠ "unknown") :
    (runFace interval env d nm cam st times).2 = times.map (fun _ => true) := by
  have hfail : ∀ now, optStrTruthy
      (if env.smPresent then env.screenshot now d.person_id else none) = false := by
    intro now
    rcases hor with h | h
    · simp [h, optStrTruthy]
    · cases hsm : env.smPresent <;> simp [h, optStrTruthy]
  induction times generalizing st with
  | nil => simp [runFace]
  | cons t ts ih =>
      have hdec : shouldSendNotification interval st d.person_id t = true := by
        simp [shouldSendNotification, hid, hfresh]
      have hmap := processSingleDetection_lastMap_noShot interval env st d nm cam t
        (hfail t)
      have hrest := ih (processSingleDetection interval env st d nm cam t).1
        (by rw [hmap]; exact hfresh)
      simp [runFace, processSingleDetection_decision, hdec, hrest]

/-- C10 (confirmed): in both the helmet and the face throttle, the
per-subject timestamp moves only when the decision was positive AND the
screenshot store is configured AND it returned a usable (non-empty) path —
for the face manager additionally only when a notification sender is
configured; consequently, when no screenshot manager is configured or every
screenshot fails, the cool-down never engages and every call for a fresh
subject key is accepted, regardless of elapsed time. -/
theorem cooldown_requires_successful_screenshot (interval : Int) :
    (∀ (env : HelmetEnv) (st : HelmetState) (v : DetectionResult) (cam : String)
        (now : Int) (pid : String),
      (processSingleViolation interval env st v cam now pid).1.lastScreenshotTime ≠
        st.lastScreenshotTime →
      shouldTakeScreenshot interval st pid now = true ∧ env.smPresent = true ∧
        optStrTruthy (env.screenshot now pid) = true) ∧
    (∀ env : HelmetEnv, (env.smPresent = false ∨ ∀ t p, env.screenshot t p = none) →
      ∀ (st : HelmetState) (v : DetectionResult) (cam pid : String) (times : List Int),
        getKey st.lastScreenshotTime pid = none →
        (runHelmet interval env v cam pid st times).2 = times.map (fun _ => true)) ∧
    (∀ (env : FaceEnv) (st : FaceState) (d : DetectionResult) (nm cam : String)
        (now : Int),
      (processSingleDetection interval env st d nm cam now).1.lastNotificationTime ≠
        st.lastNotificationTime →
      shouldSendNotification interval st d.person_id now = true ∧
        env.nsPresent = true ∧ env.smPresent = true ∧
        optStrTruthy (env.screenshot now d.person_id) = true) ∧
    (∀ env : FaceEnv, (env.smPresent = false ∨ ∀ t p, env.screenshot t p = none) →
      ∀ (st : FaceState) (d : DetectionResult) (nm cam : String) (times : List Int),
        getKey st.lastNotificationTime d.person_id = none → d.person_id ≠ "unknown" →
        (runFace interval env d nm cam st times).2 = times.map (fun _ => true)) := by
  refine ⟨?_, ?_, ?_, ?_⟩
  · intro env st v cam now pid hne
    by_cases hs : shouldTakeScreenshot interval st pid now
    · by_cases hf : optStrTruthy (if env.smPresent then env.screenshot now pid else none)
      · cases hsm : env.smPresent
        · rw [hsm] at hf
          simp [optStrTruthy] at hf
        · refine ⟨hs, rfl, ?_⟩
          rw [hsm] at hf
          simpa using hf
      · exact absurd (processSingleViolation_lastMap_noShot interval env st v cam now pid
          (by simpa using hf)) hne
    · exact absurd (processSingleViolation_lastMap_rejected interval env st v cam now pid
        (by simpa using hs)) hne
  · intro env hor st v cam pid times hfresh
    exact runHelmet_noShot_all_accepted interval env hor v cam pid times st hfresh
  · intro env st d nm cam now hne
    by_cases hs : shouldSendNotification interval st d.person_id now
    · by_cases hf : optStrTruthy (if env.smPresent then env.screenshot now d.person_id
          else none)
      · cases hsm : env.smPresent
        · rw [hsm] at hf
          simp [optStrTruthy] at hf
        · by_cases hn : env.nsPresent
          · refine ⟨hs, hn, rfl, ?_⟩
            rw [hsm] at hf
            simpa using hf
          · exact absurd (processSingleDetection_lastMap_noSender interval env st d nm cam
              now (by simpa using hn)) hne
      · exact absurd (processSingleDetection_lastMap_noShot interval env st d nm cam now
          (by simpa using hf)) hne
    · exact absurd (processSingleDetection_lastMap_rejected interval env st d nm cam now
        (by simpa using hs)) hne
  · intro env hor st d nm cam times hfresh hid
    exact runFace_noShot_all_accepted interval env hor d nm cam times st hfresh hid

/-- Helmet environment with no screenshot manager configured. -/
def envNoShotH : HelmetEnv :=
  ⟨false, true, fun _ _ => none⟩

/-- Face environment with no screenshot manager configured. -/
def envNoShotF : FaceEnv :=
  ⟨false, true, true, true, fun _ _ => none, fun _ => true⟩

/-- Concrete enrolled face detection used in examples. -/
def dFace : DetectionResult :=
  ⟨"face", 8/10, (1, 1, 5, 5), "alice"⟩

/-- Witness for `cooldown_requires_successful_screenshot`: with no screenshot
manager, calls only 3 seconds apart (far below the 20-second cool-down) are
all accepted, for both managers. -/
theorem cooldown_requires_successful_screenshot_witness :
    (runHelmet 20 envNoShotH vHelmet "cam" "p1" helmetInit [0, 3, 6]).2 =
      [true, true, true] ∧
    (runFace 20 envNoShotF dFace "Alice" "cam" faceInit [0, 3, 6]).2 =
      [true, true, true] := by
  have h := cooldown_requires_successful_screenshot 20
  refine ⟨?_, ?_⟩
  · simpa using h.2.1 envNoShotH (Or.inl rfl) helmetInit vHelmet "cam" "p1" [0, 3, 6] rfl
  · simpa using h.2.2.2 envNoShotF (Or.inl rfl) faceInit dFace "Alice" "cam" [0, 3, 6]
      rfl (by decide)

/-! ### C6: bounded frame queue (`streams/base_stream.py`) -/

/-- `BaseStream._put_frame` (lines 101-122): do nothing when stopped;
otherwise, when the bounded queue is full (`Queue.full()` is
`0 < maxsize ≤ qsize`), discard the oldest entry with `get_nowait()`, then
enqueue the new frame.  The queue is a list with the oldest entry at the
head. -/
def putFrame {α : Type} (maxsize : Nat) (isRunning : Bool) (q : List α) (f : α) :
    List α :=
  if !isRunning then q
  else
    let q := if 0 < maxsize ∧ maxsize ≤ q.length then q.drop 1 else q
    q ++ [f]

/-- `BaseStream.get_latest_frame` (lines 79-83): non-blocking FIFO pop —
returns the oldest queued frame (or `none`) and the remaining queue. -/
def getLatestFrame {α : Type} (q : List α) : Option α × List α :=
  (q.head?, q.tail)

/-- Repeatedly popping `get_latest_frame` until empty yields the queue
contents front to back. -/
def drainQueue {α : Type} : List α → List α
  | [] => []
  | x :: xs =>
      match getLatestFrame (x :: xs) with
      | (some f, _) => f :: drainQueue xs
      | (none, _) => []

theorem drainQueue_eq {α : Type} (q : List α) : drainQueue q = q := by
  induction q with
  | nil => rfl
  | cons x xs ih => simp [drainQueue, getLatestFrame, ih]

/-- Dropping one more from the front of an append with a nonempty prefix. -/
theorem drop_cons_shift {α : Type} (q rest : List α) (n : Nat) (hq : q ≠ []) :
    (q ++ rest).drop (n + 1) = (q.drop 1 ++ rest).drop n := by
  cases q with
  | nil => exact absurd rfl hq
  | cons x xs => simp

/-- Folding `_put_frame` over any frame list keeps exactly the most recent
`Q` frames (all frames while fewer than `Q` have arrived). -/
theorem foldl_putFrame (Q : Nat) {α : Type} (hQ : 0 < Q) :
    ∀ (l q : List α), q.length ≤ Q →
      List.foldl (putFrame Q true) q l = (q ++ l).drop (q.length + l.length - Q) := by
  intro l
  induction l with
  | nil =>
      intro q h
      simp [Nat.sub_eq_zero_of_le h]
  | cons a l ih =>
      intro q h
      by_cases hfull : Q ≤ q.length
      · have hqlen : q.length = Q := le_antisymm h hfull
        have hne : q ≠ [] := by
          intro h0
          rw [h0] at hqlen
          simp at hqlen
          omega
        have hstep : putFrame Q true q a = q.drop 1 ++ [a] := by
          simp [putFrame, hQ, hfull]
        have hlen1 : (q.drop 1 ++ [a]).length ≤ Q := by
          simp [List.length_drop]
          omega
        calc List.foldl (putFrame Q true) q (a :: l)
            = List.foldl (putFrame Q true) (q.drop 1 ++ [a]) l := by
              simp [List.foldl, hstep]
          _ = ((q.drop 1 ++ [a]) ++ l).drop ((q.drop 1 ++ [a]).length + l.length - Q) :=
              ih _ hlen1
          _ = (q.drop 1 ++ (a :: l)).drop (l.length) := by
              have hidx : (q.drop 1 ++ [a]).length + l.length - Q = l.length := by
                simp only [List.length_append, List.length_drop, List.length_cons,
                  List.length_nil]
                omega
              rw [hidx, List.append_assoc, List.singleton_append]
          _ = (q ++ (a :: l)).drop (l.length + 1) := (drop_cons_shift q (a :: l) _ hne).symm
          _ = (q ++ a :: l).drop (q.length + (a :: l).length - Q) := by
              have hidx : q.length + (a :: l).length - Q = l.length + 1 := by
                simp only [List.length_cons]
                omega
              rw [hidx]
      · have hstep : putFrame Q true q a = q ++ [a] := by
          simp [putFrame, hQ]
          omega
        have hlen1 : (q ++ [a]).length ≤ Q := by
          simp
          omega
        calc List.foldl (putFrame Q true) q (a :: l)
            = List.foldl (putFrame Q true) (q ++ [a]) l := by
              simp [List.foldl, hstep]
          _ = ((q ++ [a]) ++ l).drop ((q ++ [a]).length + l.length - Q) := ih _ hlen1
          _ = (q ++ a :: l).drop (q.length + (a :: l).length - Q) := by
              have hidx : (q ++ [a]).length + l.length - Q =
                  q.length + (a :: l).length - Q := by
                simp only [List.length_append, List.length_cons, List.length_nil]
                omega
              rw [hidx, List.append_assoc, List.singleton_append]

/-- C6: pushing `K > Q` frames into an empty capacity-`Q` queue leaves
exactly the `Q` most recently pushed frames, in capture order; draining the
queue returns exactly that suffix, and a single push never grows a queue
beyond its capacity. -/
theorem frame_queue_overflow (Q : Nat) {α : Type} (frames : List α) (hQ : 0 < Q)
    (hK : Q < frames.length) :
    List.foldl (putFrame Q true) [] frames = frames.drop (frames.length - Q) ∧
    (List.foldl (putFrame Q true) [] frames).length = Q ∧
    drainQueue (List.foldl (putFrame Q true) [] frames) =
      frames.drop (frames.length - Q) ∧
    (∀ (q : List α) (f : α), q.length ≤ Q → (putFrame Q true q f).length ≤ Q) := by
  have hmain := foldl_putFrame Q hQ frames [] (by simp)
  simp only [List.nil_append, List.length_nil, Nat.zero_add] at hmain
  refine ⟨hmain, ?_, ?_, ?_⟩
  · rw [hmain]
    simp [List.length_drop]
    omega
  · rw [hmain, drainQueue_eq]
  · intro q f hle
    by_cases hfull : Q ≤ q.length
    · have : q ≠ [] := by
        intro h0
        rw [h0] at hfull
        simp at hfull
        omega
      simp [putFrame, hQ, hfull, List.length_drop]
      omega
    · simp [putFrame, hQ, hfull]
      omega

/-- Witness for `frame_queue_overflow`: capacity 2, five pushes keep the last
two frames in order. -/
theorem frame_queue_overflow_witness :
    List.foldl (putFrame 2 true) [] [10, 20, 30, 40, 50] = [40, 50] ∧
    drainQueue (List.foldl (putFrame 2 true) [] [10, 20, 30, 40, 50]) = [40, 50] := by
  have h := frame_queue_overflow 2 [10, 20, 30, 40, 50] (by norm_num) (by simp)
  exact ⟨by simpa using h.1, by simpa using h.2.2.1⟩

/-! ### C7: HTTPStream reconnect policy (`streams/http_stream.py`) -/

/-- Observable state of an `HTTPStream`: the `is_running` / `is_connected`
flags, the reconnect counter, and (instrumentation) how many `connect()`
calls have happened. -/
structure HTTPStreamState where
  isRunning : Bool
  isConnected : Bool
  reconnectCount : Nat
  connectCalls : Nat
deriving DecidableEq, Repr

/-- `HTTPStream.connect` (lines 26-57), with the network outcome supplied by
`oracle` (indexed by the number of prior connect calls): success sets
`is_connected` and resets the reconnect counter to 0, failure clears
`is_connected`. -/
def httpConnect (oracle : Nat → Bool) (st : HTTPStreamState) :
    HTTPStreamState × Bool :=
  let ok := oracle st.connectCalls
  let st := { st with connectCalls := st.connectCalls + 1 }
  if ok then ({ st with isConnected := true, reconnectCount := 0 }, true)
  else ({ st with isConnected := false }, false)

/-- `HTTPStream.disconnect` (lines 59-74). -/
def httpDisconnect (st : HTTPStreamState) : HTTPStreamState :=
  { st with isConnected := false }

/-- `HTTPStream._reconnect` (lines 165-181): once the counter has reached the
maximum, clear `is_running` and give up; otherwise count this attempt,
disconnect, sleep, and make exactly one `connect()` call, returning its
outcome. -/
def httpReconnect (maxAttempts : Nat) (oracle : Nat → Bool)
    (st : HTTPStreamState) : HTTPStreamState × Bool :=
  if st.reconnectCount ≥ maxAttempts then
    ({ st with isRunning := false }, false)
  else
    let st := { st with reconnectCount := st.reconnectCount + 1 }
    let st := httpDisconnect st
    httpConnect oracle st

/-- `HTTPStream._capture_loop` (lines 76-89): while running, reconnect when
disconnected and break the loop as soon as `_reconnect` returns false;
when connected, stream frames (`streamOk` says whether `_stream_frames`
returns normally or raises) and on a raise reconnect-or-break likewise.
`fuel` bounds the iterations considered; the loop itself has no bound. -/
def httpCaptureLoop (maxAttempts : Nat) (oracle : Nat → Bool)
    (streamOk : Nat → Bool) (fuel : Nat) (st : HTTPStreamState) : HTTPStreamState :=
  match fuel with
  | 0 => st
  | fuel + 1 =>
      if !st.isRunning then st
      else if !st.isConnected then
        let r := httpReconnect maxAttempts oracle st
        if r.2 then httpCaptureLoop maxAttempts oracle streamOk fuel r.1
        else r.1
      else if streamOk st.connectCalls then
        httpCaptureLoop maxAttempts oracle streamOk fuel st
      else
        let r := httpReconnect maxAttempts oracle st
        if r.2 then httpCaptureLoop maxAttempts oracle streamOk fuel r.1
        else r.1

/-- C7 (code bug): with `max_reconnect_attempts = 5` and `connect()` failing
always, the capture loop of a running-but-disconnected stream makes exactly
ONE connect attempt and then terminates — `is_running` stays `true` and the
give-up branch of `_reconnect` (which would clear it after 5 attempts) is
never reached, because `_capture_loop` breaks as soon as a single
`_reconnect` returns false.  A successful connect does reset the counter
to 0. -/
theorem http_reconnect_gives_up_after_one_attempt :
    (httpCaptureLoop 5 (fun _ => false) (fun _ => true) 100
      ⟨true, false, 0, 0⟩).connectCalls = 1 ∧
    (httpCaptureLoop 5 (fun _ => false) (fun _ => true) 100
      ⟨true, false, 0, 0⟩).isRunning = true ∧
    (httpCaptureLoop 5 (fun _ => false) (fun _ => true) 100
      ⟨true, false, 0, 0⟩).reconnectCount = 1 ∧
    (httpConnect (fun _ => true) ⟨true, false, 3, 7⟩).1.reconnectCount = 0 := by
  refine ⟨rfl, rfl, rfl, rfl⟩

/-! ### C8 and C9: NotificationSender (`managers/notification_sender.py`) -/

/-- Outcome of one HTTP post attempt in `_send_notification_sync`: a 200
response, a non-200 response, or a raised `RequestException`. -/
inductive AttemptOutcome
  | ok
  | httpError
  | exn
deriving DecidableEq, Repr

/-- The sender's `self.stats` (lines 43-50): counters and the last recorded
error. -/
structure SenderStats where
  totalSent : Nat
  successfulSent : Nat
  failedSent : Nat
  lastError : Option String
deriving DecidableEq, Repr

/-- `NotificationSender._update_stats` (lines 304-314). -/
def senderUpdateStats (st : SenderStats) (success : Bool) (error : Option String) :
    SenderStats :=
  let st := { st with totalSent := st.totalSent + 1 }
  if success then { st with successfulSent := st.successfulSent + 1 }
  else { st with failedSent := st.failedSent + 1, lastError := error }

/-- The retry loop of `_send_notification_sync` (lines 121-146), with
`outcomes` giving each attempt's result.  Returns (result, stats, attempts
made, sleeps taken).  A 200 stops with success; a non-200 just falls through
to the next attempt; an exception sleeps `retry_delay` unless this was the
last attempt.  When the loop finishes without success the failure is recorded
as "Max retry attempts exceeded" and `False` is returned. -/
def sendAttempts (retryAttempts : Nat) (outcomes : Nat → AttemptOutcome) :
    Nat → Nat → Nat → Nat → SenderStats → Bool × SenderStats × Nat × Nat
  | _, 0, a, s, st =>
      (false, senderUpdateStats st false (some "Max retry attempts exceeded"), a, s)
  | attempt, remaining + 1, a, s, st =>
      match outcomes attempt with
      | .ok => (true, senderUpdateStats st true none, a + 1, s)
      | .httpError =>
          sendAttempts retryAttempts outcomes (attempt + 1) remaining (a + 1) s st
      | .exn =>
          let s := if attempt < retryAttempts - 1 then s + 1 else s
          sendAttempts retryAttempts outcomes (attempt + 1) remaining (a + 1) s st

/-- `NotificationSender._send_notification_sync` (lines 121-146): run
`range(retry_attempts)` attempts. -/
def sendNotificationSync (retryAttempts : Nat) (outcomes : Nat → AttemptOutcome)
    (st : SenderStats) : Bool × SenderStats × Nat × Nat :=
  sendAttempts retryAttempts outcomes 0 retryAttempts 0 0 st

/-- Closed form of the retry loop when every attempt raises. -/
theorem sendAttempts_all_exn (N : Nat) (outcomes : Nat → AttemptOutcome)
    (st : SenderStats) (hall : ∀ i, outcomes i = AttemptOutcome.exn) :
    ∀ (remaining attempt a s : Nat), attempt + remaining = N →
      sendAttempts N outcomes attempt remaining a s st =
        (false, senderUpdateStats st false (some "Max retry attempts exceeded"),
         a + remaining, s + (remaining - 1)) := by
  intro remaining
  induction remaining with
  | zero =>
      intro attempt a s h
      simp [sendAttempts]
  | succ remaining ih =>
      intro attempt a s h
      rw [show sendAttempts N outcomes attempt (remaining + 1) a s st =
          sendAttempts N outcomes (attempt + 1) remaining (a + 1)
            (if attempt < N - 1 then s + 1 else s) st from by
        simp [sendAttempts, hall attempt]]
      rcases Nat.eq_zero_or_pos remaining with h0 | h0
      · subst h0
        have : ¬ attempt < N - 1 := by omega
        simp [this, sendAttempts]
      · have hlt : attempt < N - 1 := by omega
        rw [if_pos hlt, ih (attempt + 1) (a + 1) (s + 1) (by omega)]
        simp only [Prod.mk.injEq, true_and]
        refine ⟨by omega, by omega⟩

/-- Closed form of the retry loop when every attempt gets a non-200
response: the loop just falls through to the next attempt, with no sleep
anywhere (`time.sleep` sits only in the `except` branch). -/
theorem sendAttempts_all_httpError (N : Nat) (outcomes : Nat → AttemptOutcome)
    (st : SenderStats) (hall : ∀ i, outcomes i = AttemptOutcome.httpError) :
    ∀ (remaining attempt a s : Nat),
      sendAttempts N outcomes attempt remaining a s st =
        (false, senderUpdateStats st false (some "Max retry attempts exceeded"),
         a + remaining, s) := by
  intro remaining
  induction remaining with
  | zero =>
      intro attempt a s
      simp [sendAttempts]
  | succ remaining ih =>
      intro attempt a s
      rw [show sendAttempts N outcomes attempt (remaining + 1) a s st =
          sendAttempts N outcomes (attempt + 1) remaining (a + 1) s st from by
        simp [sendAttempts, hall attempt]]
      rw [ih (attempt + 1) (a + 1) s]
      simp only [Prod.mk.injEq, true_and, and_true]
      omega

/-- C8 counterexample: an endpoint answering 500 to every attempt fails every
delivery attempt, and the dispatcher does make exactly 3 attempts, drop the
job, return failure and record the error — but it takes ZERO inter-attempt
delays (the last component), refuting the claimed fixed delay between
consecutive attempts: `time.sleep` runs only in the `except` branch, which a
non-200 response never reaches. -/
theorem notification_retry_no_delay_cex :
    sendNotificationSync 3 (fun _ => AttemptOutcome.httpError) ⟨0, 0, 0, none⟩ =
      (false, ⟨1, 0, 1, some "Max retry attempts exceeded"⟩, 3, 0) := by
  rfl

/-- C8 (amended): with `retry_attempts = N ≥ 1`, a delivery whose every
attempt fails makes exactly `N` attempts, returns failure, bumps
`failed_sent` by exactly one and records the last error; the fixed
inter-attempt delay happens only between attempts that fail by RAISING —
`N - 1` delays when every attempt raises, none at all when every attempt
fails with a non-200 response.  A delivery whose first attempt gets a 200
makes exactly one attempt, returns success and bumps the success
counters. -/
theorem notification_retry_policy (N : Nat) (outcomes : Nat → AttemptOutcome)
    (st : SenderStats) (hN : 1 ≤ N) :
    ((∀ i, outcomes i = AttemptOutcome.exn) →
      sendNotificationSync N outcomes st =
        (false,
         { totalSent := st.totalSent + 1, successfulSent := st.successfulSent,
           failedSent := st.failedSent + 1,
           lastError := some "Max retry attempts exceeded" },
         N, N - 1)) ∧
    ((∀ i, outcomes i = AttemptOutcome.httpError) →
      sendNotificationSync N outcomes st =
        (false,
         { totalSent := st.totalSent + 1, successfulSent := st.successfulSent,
           failedSent := st.failedSent + 1,
           lastError := some "Max retry attempts exceeded" },
         N, 0)) ∧
    (outcomes 0 = AttemptOutcome.ok →
      sendNotificationSync N outcomes st =
        (true,
         { totalSent := st.totalSent + 1, successfulSent := st.successfulSent + 1,
           failedSent := st.failedSent, lastError := st.lastError },
         1, 0)) := by
  refine ⟨?_, ?_, ?_⟩
  · intro hall
    rw [sendNotificationSync, sendAttempts_all_exn N outcomes st hall N 0 0 0 (by omega)]
    simp [senderUpdateStats]
  · intro hall
    rw [sendNotificationSync, sendAttempts_all_httpError N outcomes st hall N 0 0 0]
    simp [senderUpdateStats]
  · intro h0
    obtain ⟨M, rfl⟩ : ∃ M, N = M + 1 := ⟨N - 1, by omega⟩
    simp [sendNotificationSync, sendAttempts, h0, senderUpdateStats]

/-- Witness for `notification_retry_policy` with 3 retries, on an
always-raising endpoint (2 delays), an always-500 endpoint (no delay) and a
first-try-200 endpoint. -/
theorem notification_retry_policy_witness :
    sendNotificationSync 3 (fun _ => AttemptOutcome.exn) ⟨0, 0, 0, none⟩ =
      (false, ⟨1, 0, 1, some "Max retry attempts exceeded"⟩, 3, 2) ∧
    sendNotificationSync 3 (fun _ => AttemptOutcome.httpError) ⟨0, 0, 0, none⟩ =
      (false, ⟨1, 0, 1, some "Max retry attempts exceeded"⟩, 3, 0) ∧
    sendNotificationSync 3 (fun _ => AttemptOutcome.ok) ⟨0, 0, 0, none⟩ =
      (true, ⟨1, 1, 0, none⟩, 1, 0) := by
  refine ⟨?_, ?_, ?_⟩
  · simpa using (notification_retry_policy 3 (fun _ => AttemptOutcome.exn)
      ⟨0, 0, 0, none⟩ (by norm_num)).1 (fun i => rfl)
  · simpa using (notification_retry_policy 3 (fun _ => AttemptOutcome.httpError)
      ⟨0, 0, 0, none⟩ (by norm_num)).2.1 (fun i => rfl)
  · simpa using (notification_retry_policy 3 (fun _ => AttemptOutcome.ok)
      ⟨0, 0, 0, none⟩ (by norm_num)).2.2 rfl

/-- `NotificationSender.send_violation_notification` (lines 72-96): in async
mode with the worker running, the job is put on the notification queue —
built as `Queue()` in `__init__` (line 38), i.e. with no `maxsize` — and
`True` is returned; otherwise the job is delivered inline
(`_send_notification_sync`, abstracted by `syncResult`). -/
def sendViolationNotification {α : Type} (asyncMode isRunning syncResult : Bool)
    (q : List α) (job : α) : Bool × List α :=
  if asyncMode && isRunning then (true, q ++ [job])
  else (syncResult, q)

/-- `n` async submissions with no intervening worker drain. -/
def submitN {α : Type} (job : α) : Nat → List α
  | 0 => []
  | n + 1 => (sendViolationNotification true true true (submitN job n) job).2

theorem submitN_length {α : Type} (job : α) (n : Nat) :
    (submitN job n).length = n := by
  induction n with
  | zero => rfl
  | succ n ih => simp [submitN, sendViolationNotification, ih]

/-- C9 counterexample: no finite capacity bounds the notification queue — the
queue after `Q + 1` undrained submissions holds `Q + 1` jobs, for every
claimed capacity `Q`. -/
theorem notification_queue_unbounded_cex :
    ¬ ∃ Q : Nat, ∀ n : Nat, (submitN "job" n).length ≤ Q := by
  rintro ⟨Q, h⟩
  have hQ := h (Q + 1)
  rw [submitN_length] at hQ
  omega

/-- C9 (amended): in async mode `submit` enqueues without blocking and
returns `True`, but the queue is unbounded — after `n` undrained submissions
it holds exactly `n` jobs. -/
theorem notification_queue_growth {α : Type} (job : α) (n : Nat) (q : List α) :
    (submitN job n).length = n ∧
    sendViolationNotification true true true q job = (true, q ++ [job]) := by
  exact ⟨submitN_length job n, rfl⟩

/-! ### C4 and C5: RuleEngineManager (`managers/rule_engine_manager.py`) -/

/-- The evaluation instant `datetime.now()` as `_check_schedule` reads it:
the Python `weekday()` (0 = Monday .. 6 = Sunday) and the second of the day
of `now.time()`. -/
structure NowTime where
  weekday : Nat
  secOfDay : Nat
deriving DecidableEq, Repr

/-- Value of a single decimal digit character, `none` for anything else. -/
def digitVal? (c : Char) : Option Nat :=
  if '0' ≤ c ∧ c ≤ '9' then some (c.toNat - '0'.toNat) else none

/-- Value of a non-empty digit string. -/
def digitsVal? : List Char → Option Nat
  | [] => none
  | cs =>
      cs.foldl
        (fun acc c =>
          match acc, digitVal? c with
          | some n, some d => some (n * 10 + d)
          | _, _ => none)
        (some 0)

/-- Python `int(s)` on a character list: strip blanks, optional sign, digits;
`none` models the `ValueError`. -/
def pyIntChars? (s : List Char) : Option Int :=
  let t := ((s.dropWhile (fun c => c = ' ')).reverse.dropWhile
    (fun c => c = ' ')).reverse
  match t with
  | '-' :: rest => (digitsVal? rest).map (fun n => -(n : Int))
  | '+' :: rest => (digitsVal? rest).map (fun n => (n : Int))
  | _ => (digitsVal? t).map (fun n => (n : Int))

/-- Python `str.split(':')`. -/
def splitOnColon : List Char → List (List Char)
  | [] => [[]]
  | c :: cs =>
      if c = ':' then [] :: splitOnColon cs
      else
        match splitOnColon cs with
        | [] => [[c]]
        | h :: t => (c :: h) :: t

/-- Python `datetime.time(h, m)`: raises unless `0 ≤ h ≤ 23` and
`0 ≤ m ≤ 59`. -/
def pyTime? (h m : Int) : Option (Nat × Nat) :=
  if 0 ≤ h ∧ h ≤ 23 ∧ 0 ≤ m ∧ m ≤ 59 then some (h.toNat, m.toNat) else none

/-- `RuleEngineManager._parse_time` (lines 193-207): split on `:`, convert
the first two parts with `int`, build a `time`; any raise (fewer than two
parts, a non-numeric part, an out-of-range value) yields `time(0, 0)`. -/
def parseTime (s : List Char) : Nat × Nat :=
  match splitOnColon s with
  | p0 :: p1 :: _ =>
      match pyIntChars? p0, pyIntChars? p1 with
      | some h, some m => (pyTime? h m).getD (0, 0)
      | _, _ => (0, 0)
  | _ => (0, 0)

/-- Second of the day of a parsed `time` (Python compares `time` objects
lexicographically on (hour, minute, second); the parsed bounds have
second 0). -/
def timeToSec (t : Nat × Nat) : Nat :=
  t.1 * 3600 + t.2 * 60

/-- One entry of the `time_ranges` list of a `schedule_config`, with its
`start` / `end` keys possibly absent. -/
structure ScheduleTimeRange where
  startStr : Option (List Char)
  endStr : Option (List Char)
deriving DecidableEq, Repr

/-- A non-empty `schedule_config` dict: `weekdays` (1 = Monday .. 7 = Sunday)
and `time_ranges`. -/
structure ScheduleConfig where
  weekdays : List Nat
  timeRanges : List ScheduleTimeRange
deriving DecidableEq, Repr

/-- `RuleEngineManager._check_schedule` (lines 154-191); `none` models the
empty dict (`not schedule_config` is true).  Note both range bounds are
inclusive: `start_time <= current_time <= end_time`. -/
def checkSchedule (cfg : Option ScheduleConfig) (now : NowTime) : Bool :=
  match cfg with
  | none => true
  | some c =>
      if !c.weekdays.isEmpty && !(c.weekdays.contains (now.weekday + 1)) then false
      else if !c.timeRanges.isEmpty &&
          !(c.timeRanges.any fun r =>
            decide (timeToSec (parseTime (r.startStr.getD ['0', '0', ':', '0', '0']))
              ≤ now.secOfDay) &&
            decide (now.secOfDay ≤
              timeToSec (parseTime (r.endStr.getD ['2', '3', ':', '5', '9'])))) then
        false
      else true

/-- One cached rule as `reload_rules` (lines 25-48) builds it.  `none` models
a NULL/empty `stream_source_type`; empty lists model NULL/empty id and
subject allowlists (`or []`). -/
structure Rule where
  rule_id : String
  stream_source_type : Option String
  stream_source_ids : List String
  person_ids : List String
  detection_types : List String
  confidence_threshold : ℚ
  time_threshold : Option Int
  notification_enabled : Bool
  schedule_enabled : Bool
  schedule_config : Option ScheduleConfig
  priority : Int
deriving DecidableEq, Repr

/-- The filter body of `get_matching_rules` (lines 125-147): detection type
admitted, stream-type filter (wildcard when absent), stream-id allowlist
(wildcard when empty), subject allowlist only for `face`, schedule. -/
def ruleMatches (streamId streamType detectionType : String)
    (personId : Option String) (now : NowTime) (rule : Rule) : Bool :=
  if !(rule.detection_types.contains detectionType) then false
  else if (match rule.stream_source_type with
           | some t => !(t == streamType)
           | none => false) then false
  else if !rule.stream_source_ids.isEmpty &&
      !(rule.stream_source_ids.contains streamId) then false
  else if detectionType == "face" && !rule.person_ids.isEmpty &&
      (match personId with
       | none => true
       | some p => !(rule.person_ids.contains p)) then false
  else if rule.schedule_enabled && !(checkSchedule rule.schedule_config now) then false
  else true

/-- `RuleEngineManager.get_matching_rules` (lines 100-152): filter the cached
rules, then `matching_rules.sort(key=priority, reverse=True)` — a stable sort
by priority descending, embedded as the (stable) insertion sort. -/
def getMatchingRules (rules : List Rule) (streamId streamType detectionType : String)
    (personId : Option String) (now : NowTime) : List Rule :=
  List.insertionSort (fun a b => b.priority ≤ a.priority)
    (rules.filter (ruleMatches streamId streamType detectionType personId now))

/-- `RuleEngineManager.should_trigger_violation` (lines 209-248): no match
gives `(False, None)`; otherwise take the top match and compare the
confidence against its threshold (`confidence < threshold` rejects, so the
boundary triggers). -/
def shouldTriggerViolation (rules : List Rule)
    (streamId streamType detectionType : String) (confidence : ℚ)
    (personId : Option String) (now : NowTime) : Bool × Option Rule :=
  match getMatchingRules rules streamId streamType detectionType personId now with
  | [] => (false, none)
  | rule :: _ =>
      if confidence < rule.confidence_threshold then (false, none)
      else (true, some rule)

/-- Modelled from the spec's phrase "the admissible rule of highest priority
with ties resolved by original order": scan keeping the earliest rule of
maximal priority. -/
def firstMaxRule : List Rule → Option Rule
  | [] => none
  | x :: l =>
      match firstMaxRule l with
      | none => some x
      | some m => if m.priority ≤ x.priority then some x else some m

theorem firstMaxRule_eq_none (l : List Rule) : firstMaxRule l = none ↔ l = [] := by
  cases l with
  | nil => simp [firstMaxRule]
  | cons x l =>
      simp only [firstMaxRule]
      cases h : firstMaxRule l
      · simp
      · simp only [h]
        constructor
        · intro hc
          split_ifs at hc
        · intro hc
          exact absurd hc (List.cons_ne_nil x l)

/-- The head of the stable descending insertion sort is the earliest rule of
maximal priority. -/
theorem head_insertionSort_firstMax (l : List Rule) :
    (List.insertionSort (fun a b => b.priority ≤ a.priority) l).head? =
      firstMaxRule l := by
  induction l with
  | nil => rfl
  | cons x l ih =>
      rw [List.insertionSort]
      cases hs : List.insertionSort (fun a b => b.priority ≤ a.priority) l with
      | nil =>
          have hperm := List.perm_insertionSort (fun a b => b.priority ≤ a.priority) l
          rw [hs] at hperm
          have hl : l = [] := (hperm.symm).eq_nil
          subst hl
          rfl
      | cons h t =>
          have hfm : firstMaxRule l = some h := by
            rw [← ih, hs]
            rfl
          simp only [List.orderedInsert, firstMaxRule, hfm]
          split_ifs with hle
          · rfl
          · rfl

/-- `firstMaxRule` really is the first maximum: it is a member, it bounds
every member, and everything before it is strictly smaller. -/
theorem firstMaxRule_spec (l : List Rule) (r : Rule) (h : firstMaxRule l = some r) :
    r ∈ l ∧ (∀ x ∈ l, x.priority ≤ r.priority) ∧
    ∃ l1 l2, l = l1 ++ r :: l2 ∧ ∀ x ∈ l1, x.priority < r.priority := by
  induction l generalizing r with
  | nil => simp [firstMaxRule] at h
  | cons x l ih =>
      cases hm : firstMaxRule l with
      | none =>
          have hl : l = [] := (firstMaxRule_eq_none l).mp hm
          subst hl
          simp only [firstMaxRule] at h
          have hr : x = r := by
            cases h
            rfl
          subst hr
          exact ⟨by simp, by simp, [], [], by simp, by simp⟩
      | some m =>
          simp only [firstMaxRule, hm] at h
          obtain ⟨hmem, hbound, l1, l2, heq, hlt⟩ := ih m hm
          by_cases hle : m.priority ≤ x.priority
          · rw [if_pos hle] at h
            have hr : x = r := by
              cases h
              rfl
            subst hr
            refine ⟨by simp, ?_, [], l, by simp, by simp⟩
            intro y hy
            rcases List.mem_cons.mp hy with h1 | h2
            · rw [h1]
            · exact le_trans (hbound y h2) hle
          · rw [if_neg hle] at h
            have hr : m = r := by
              cases h
              rfl
            subst hr
            refine ⟨List.mem_cons_of_mem x hmem, ?_, x :: l1, l2, ?_, ?_⟩
            · intro y hy
              rcases List.mem_cons.mp hy with h1 | h2
              · rw [h1]
                omega
              · exact hbound y h2
            · rw [heq]
              rfl
            · intro y hy
              rcases List.mem_cons.mp hy with h1 | h2
              · rw [h1]
                omega
              · exact hlt y h2

/-- C4: `should_trigger_violation` returns `(True, r)` exactly when the
admissible rules are non-empty, `r` is the first admissible rule of maximal
priority (ties broken by original order), and the confidence is at least
`r`'s threshold (boundary inclusive); otherwise `(False, None)`.  The second
conjunct pins down what "top match" means: a member of the admissible set
bounding all admissible priorities, preceded only by strictly
lower-priority admissible rules. -/
theorem should_trigger_top_match (rules : List Rule)
    (sid stype dtype : String) (conf : ℚ) (pid : Option String) (now : NowTime) :
    shouldTriggerViolation rules sid stype dtype conf pid now =
      (match firstMaxRule (rules.filter (ruleMatches sid stype dtype pid now)) with
       | none => (false, none)
       | some r =>
           if r.confidence_threshold ≤ conf then (true, some r) else (false, none)) ∧
    (∀ r, firstMaxRule (rules.filter (ruleMatches sid stype dtype pid now)) = some r →
      (r ∈ rules ∧ ruleMatches sid stype dtype pid now r = true) ∧
      (∀ x ∈ rules, ruleMatches sid stype dtype pid now x = true →
        x.priority ≤ r.priority) ∧
      ∃ l1 l2, rules.filter (ruleMatches sid stype dtype pid now) = l1 ++ r :: l2 ∧
        ∀ x ∈ l1, x.priority < r.priority) := by
  constructor
  · have hhead := head_insertionSort_firstMax
      (rules.filter (ruleMatches sid stype dtype pid now))
    unfold shouldTriggerViolation getMatchingRules
    cases hm : firstMaxRule (rules.filter (ruleMatches sid stype dtype pid now)) with
    | none =>
        rw [hm] at hhead
        rw [List.head?_eq_none_iff] at hhead
        rw [hhead]
    | some r =>
        rw [hm] at hhead
        cases hs : List.insertionSort (fun a b => b.priority ≤ a.priority)
            (rules.filter (ruleMatches sid stype dtype pid now)) with
        | nil =>
            rw [hs] at hhead
            simp at hhead
        | cons a t =>
            rw [hs] at hhead
            have ha : a = r := by
              simpa using hhead
            subst ha
            dsimp only
            by_cases hc : conf < a.confidence_threshold
            · rw [if_pos hc, if_neg (by exact not_le.mpr hc)]
            · rw [if_neg hc, if_pos (not_lt.mp hc)]
  · intro r hr
    obtain ⟨hmem, hbound, l1, l2, heq, hlt⟩ := firstMaxRule_spec _ r hr
    rw [List.mem_filter] at hmem
    refine ⟨⟨hmem.1, hmem.2⟩, ?_, l1, l2, heq, hlt⟩
    intro x hx hmx
    exact hbound x (List.mem_filter.mpr ⟨hx, hmx⟩)

/-- Low-priority helmet rule with threshold 0.8. -/
def ruleEx1 : Rule :=
  ⟨"r1", none, [], [], ["helmet"], 8/10, none, true, false, none, 1⟩

/-- High-priority helmet rule with threshold 0.9. -/
def ruleEx2 : Rule :=
  ⟨"r2", none, [], [], ["helmet"], 9/10, none, true, false, none, 5⟩

/-- A two-rule snapshot. -/
def rulesEx : List Rule :=
  [ruleEx1, ruleEx2]

/-- An arbitrary evaluation instant (Wednesday 10:00:00). -/
def nowEx : NowTime :=
  ⟨2, 36000⟩

/-- Witness for `should_trigger_top_match`: the higher-priority rule `r2` is
the top match, so 0.85 (above `r1`'s threshold but below `r2`'s) does not
trigger while 0.93 does. -/
theorem should_trigger_top_match_witness :
    shouldTriggerViolation rulesEx "s1" "camera" "helmet" (85/100) none nowEx =
      (false, none) ∧
    shouldTriggerViolation rulesEx "s1" "camera" "helmet" (93/100) none nowEx =
      (true, some ruleEx2) := by
  have hfm : firstMaxRule
      (List.filter (ruleMatches "s1" "camera" "helmet" none nowEx) rulesEx) =
      some ruleEx2 := rfl
  constructor
  · rw [(should_trigger_top_match rulesEx "s1" "camera" "helmet" (85/100) none nowEx).1,
      hfm]
    rw [show (match some ruleEx2 with
      | none => ((false, none) : Bool × Option Rule)
      | some r => if r.confidence_threshold ≤ 85/100 then (true, some r)
                  else (false, none)) =
      if ruleEx2.confidence_threshold ≤ 85/100 then (true, some ruleEx2)
      else (false, none) from rfl]
    rw [if_neg (by norm_num [ruleEx2])]
  · rw [(should_trigger_top_match rulesEx "s1" "camera" "helmet" (93/100) none nowEx).1,
      hfm]
    rw [show (match some ruleEx2 with
      | none => ((false, none) : Bool × Option Rule)
      | some r => if r.confidence_threshold ≤ 93/100 then (true, some r)
                  else (false, none)) =
      if ruleEx2.confidence_threshold ≤ 93/100 then (true, some ruleEx2)
      else (false, none) from rfl]
    rw [if_pos (by norm_num [ruleEx2])]

/-- The schedule guard exactly as the callers apply it (lines 92 and 144):
a rule passes unless its schedule is enabled and `_check_schedule` fails. -/
def schedulePasses (scheduleEnabled : Bool) (cfg : Option ScheduleConfig)
    (now : NowTime) : Bool :=
  !(scheduleEnabled && !(checkSchedule cfg now))

/-- Boolean normal form of `_check_schedule` on a non-empty config. -/
theorem checkSchedule_some (c : ScheduleConfig) (now : NowTime) :
    checkSchedule (some c) now =
      ((c.weekdays.isEmpty || c.weekdays.contains (now.weekday + 1)) &&
       (c.timeRanges.isEmpty || c.timeRanges.any fun r =>
         decide (timeToSec (parseTime (r.startStr.getD ['0', '0', ':', '0', '0']))
           ≤ now.secOfDay) &&
         decide (now.secOfDay ≤
           timeToSec (parseTime (r.endStr.getD ['2', '3', ':', '5', '9']))))) := by
  cases h1 : c.weekdays.isEmpty <;>
    cases h2 : c.weekdays.contains (now.weekday + 1) <;>
      cases h3 : c.timeRanges.isEmpty <;>
        cases h4 : c.timeRanges.any fun r =>
          decide (timeToSec (parseTime (r.startStr.getD ['0', '0', ':', '0', '0']))
            ≤ now.secOfDay) &&
          decide (now.secOfDay ≤
            timeToSec (parseTime (r.endStr.getD ['2', '3', ':', '5', '9']))) <;>
          (simp only [checkSchedule, h1, h2, h3, h4, Bool.not_false, Bool.not_true,
            Bool.and_true, Bool.and_false, Bool.true_and, Bool.false_and,
            Bool.or_true, Bool.or_false, Bool.true_or, Bool.false_or,
            if_true, if_false]
           all_goals decide)

/-- C5 (amended): a disabled schedule always passes; an empty config is
always active; an enabled non-empty schedule is active iff the weekday set is
empty or contains the current weekday, AND the time-range list is empty or
`now` lies in at least one range taken as a CLOSED interval `[start, end]`
(both bounds inclusive — the source compares
`start_time <= current_time <= end_time`); malformed time strings parse as
00:00 and out-of-range or non-numeric components likewise fall back to
00:00. -/
theorem schedule_evaluation (now : NowTime) :
    (∀ cfg : Option ScheduleConfig, schedulePasses false cfg now = true) ∧
    (∀ cfg : Option ScheduleConfig, schedulePasses true cfg now = checkSchedule cfg now) ∧
    checkSchedule none now = true ∧
    (∀ c : ScheduleConfig, checkSchedule (some c) now = true ↔
      (c.weekdays = [] ∨ (now.weekday + 1) ∈ c.weekdays) ∧
      (c.timeRanges = [] ∨ ∃ r ∈ c.timeRanges,
        timeToSec (parseTime (r.startStr.getD ['0', '0', ':', '0', '0'])) ≤ now.secOfDay ∧
        now.secOfDay ≤ timeToSec (parseTime (r.endStr.getD ['2', '3', ':', '5', '9'])))) ∧
    (parseTime [] = (0, 0) ∧ parseTime ['1', '2'] = (0, 0) ∧
     parseTime ['2', '5', ':', '0', '0'] = (0, 0) ∧
     parseTime ['1', '2', ':', '6', '0'] = (0, 0) ∧
     parseTime ['a', 'b', ':', 'c'] = (0, 0) ∧
     parseTime ['0', '8', ':', '3', '0'] = (8, 30)) := by
  refine ⟨?_, ?_, rfl, ?_, by decide⟩
  · intro cfg
    rfl
  · intro cfg
    cases h : checkSchedule cfg now <;> simp [schedulePasses, h]
  · intro c
    rw [checkSchedule_some]
    simp [List.isEmpty_eq_true, List.contains, List.any_eq_true]

/-- Modelled from the spec's words: active iff (weekday set empty OR current
weekday in it) AND (ranges empty OR now in at least one HALF-OPEN range
`[start, end)`, start inclusive, end exclusive). -/
def specScheduleHalfOpen (c : ScheduleConfig) (now : NowTime) : Bool :=
  (c.weekdays.isEmpty || c.weekdays.contains (now.weekday + 1)) &&
  (c.timeRanges.isEmpty || c.timeRanges.any fun r =>
    decide (timeToSec (parseTime (r.startStr.getD ['0', '0', ':', '0', '0']))
      ≤ now.secOfDay) &&
    decide (now.secOfDay <
      timeToSec (parseTime (r.endStr.getD ['2', '3', ':', '5', '9']))))

/-- An enabled schedule config with the single range 08:00-10:00. -/
def cfgCex : ScheduleConfig :=
  ⟨[], [⟨some ['0', '8', ':', '0', '0'], some ['1', '0', ':', '0', '0']⟩]⟩

/-- C5 counterexample: at exactly 10:00:00 the code says the 08:00-10:00
schedule is still active (`start <= now <= end`, end inclusive), while the
claimed half-open `[start, end)` evaluation says it is not. -/
theorem schedule_halfopen_cex :
    nowEx.secOfDay = timeToSec (parseTime ['1', '0', ':', '0', '0']) ∧
    checkSchedule (some cfgCex) nowEx = true ∧
    specScheduleHalfOpen cfgCex nowEx = false := by
  refine ⟨rfl, rfl, rfl⟩

/-- Witness for `schedule_evaluation`: an enabled schedule for Wednesday
(weekday 3) with range 08:00-10:00 is active at Wednesday 10:00:00, and the
malformed string "25:00" parses as 00:00. -/
theorem schedule_evaluation_witness :
    checkSchedule (some ⟨[3], [⟨some ['0', '8', ':', '0', '0'],
      some ['1', '0', ':', '0', '0']⟩]⟩) nowEx = true ∧
    parseTime ['2', '5', ':', '0', '0'] = (0, 0) := by
  have h := schedule_evaluation nowEx
  constructor
  · refine (h.2.2.2.1 _).mpr ⟨Or.inr (by decide), Or.inr ?_⟩
    exact ⟨⟨some ['0', '8', ':', '0', '0'], some ['1', '0', ':', '0', '0']⟩,
      by decide, by decide, by decide⟩
  · exact h.2.2.2.2.2.2.1
